import Mathlib

/-!
Verification development for the Mittens ImageJ plugin (src/Mittens_2.0.js, with the
earlier revision in src/unnamed/part_000).  The script is glue around host (ImageJ)
commands; the definitions below are a shallow embedding of its control flow and of the
pixel-block layout logic of `stackImagesHorizontally`.  Host primitives that the script
merely invokes (processor depth conversion, `RGBStackMerge.mergeChannels`) are taken as
parameters of the embedded functions; host primitives with a fixed documented meaning
(`ImageProcessor.insert` = rectangular sample-block copy, `IJ.createImage` = blank
canvas) are modelled directly.

Images are modelled as the workflow produces them: single-channel/single-slice stacks
with a list of per-time-frame pixel grids.  Calibration numbers (JS doubles) are only
ever copied by the script, never computed with, so they are carried as rationals.
-/

set_option maxHeartbeats 1000000

namespace Mittens

/-- Pixel grid of one frame / one processor: the sample value at (x, y). -/
def Grid : Type := Nat → Nat → Nat

def defaultGrid : Grid := fun _ _ => 0

/-- Calibration record (ij.measure.Calibration fields the script touches). -/
structure Cal where
  pixelWidth : Rat
  pixelHeight : Rat
  unit : String
  frameInterval : Rat
  fps : Rat
deriving DecidableEq

/-- Default calibration of a freshly created ImageJ image. -/
def defaultCal : Cal :=
  { pixelWidth := 1, pixelHeight := 1, unit := "pixel", frameInterval := 0, fps := 0 }

/-- An ImagePlus as the workflow uses it: extents, bit depth, per-frame pixel grids,
calibration, and whether its window is currently shown. -/
structure Img where
  width : Nat
  height : Nat
  bitDepth : Nat
  nChannels : Nat
  frames : List Grid
  cal : Cal
  shown : Bool

def defaultImg : Img :=
  { width := 0, height := 0, bitDepth := 8, nChannels := 1, frames := [],
    cal := defaultCal, shown := false }

/-! ## Montage Assembler (`stackImagesHorizontally`, Mittens_2.0.js lines 474-592) -/

/-- `images.reduce(function(sum, img) { return sum + img.getWidth(); }, 0)` (line 492). -/
def sumWidths (images : List Img) : Nat :=
  images.foldl (fun s img => s + img.width) 0

/-- `Math.max.apply(null, images.map(function(img) { return img.getHeight(); }))`
(line 493); fold with 0, which agrees with `Math.max` on the nonempty lists the
function accepts. -/
def maxHeight (images : List Img) : Nat :=
  (images.map Img.height).foldl Nat.max 0

/-- `images.some(function(img) { return img.getBitDepth() == 24; })` (lines 496-498). -/
def anyRGB (images : List Img) : Bool :=
  images.any (fun img => img.bitDepth == 24)

/-- The `hasTimeFrames` flag computed in lines 482-490. -/
def hasTimeFrames (images : List Img) : Bool :=
  images.any (fun img => 1 < img.frames.length)

/-- The `maxFrames` accumulator of lines 483-490: start at 1, and for each input with
more than one frame take its frame count when larger than the current maximum. -/
def maxFrames (images : List Img) : Nat :=
  images.foldl
    (fun m img => if 1 < img.frames.length ∧ m < img.frames.length then img.frames.length else m)
    1

/-- The processor chosen for input `img` at output frame `f` (1-indexed), lines 536-546:
frame `f` when the input has at least `f` frames, otherwise its last frame.  (ImageJ
images always have at least one frame; the `getNFrames() > 0` guard of line 540 is
subsumed by `getD` on a possibly empty list.) -/
def procForFrame (img : Img) (f : Nat) : Grid :=
  if f ≤ img.frames.length then img.frames.getD (f - 1) defaultGrid
  else img.frames.getD (img.frames.length - 1) defaultGrid

/-- Lines 548-550 / 571-573: promote a non-24-bit input to RGB (via the host
`convertToRGB`, passed in as `conv` applied to the input bit depth) only when the
output canvas is RGB. -/
def maybeConvert (conv : Nat → Grid → Grid) (rgb : Bool) (img : Img) (proc : Grid) : Grid :=
  if rgb && (img.bitDepth != 24) then conv img.bitDepth proc else proc

/-- Host `ImageProcessor.insert(proc, xOff, 0)`: copy the `w × h` sample block of
`proc` onto the canvas at horizontal offset `xOff`, vertical offset 0. -/
def insertProc (canvas proc : Grid) (xOff w h : Nat) : Grid :=
  fun x y => if xOff ≤ x ∧ x < xOff + w ∧ y < h then proc (x - xOff) y else canvas x y

/-- The per-frame paste loop of lines 530-553 (and lines 567-576 for the single-frame
branch, where each input's current processor is its only frame): walk the inputs left
to right, inserting each at the running offset `xOff` and advancing by its width. -/
def insertAll (conv : Nat → Grid → Grid) (rgb : Bool) (f : Nat) :
    List Img → Nat → Grid → Grid
  | [], _, canvas => canvas
  | img :: rest, xOff, canvas =>
      insertAll conv rgb f rest (xOff + img.width)
        (insertProc canvas (maybeConvert conv rgb img (procForFrame img f))
          xOff img.width img.height)

/-- Fill value of the blank canvases: `IJ.createImage` "8-bit black"/"16-bit black"
canvases are zero; the RGB canvases (no "black" flag, lines 507/558) get the host's
default white fill.  No claim observes uncovered canvas pixels. -/
def blankFill (rgb : Bool) : Nat := if rgb then 16777215 else 0

/-- The output frame list: in the hyperstack branch (lines 501-554) one canvas per
output frame `f ∈ 1..maxFrames`, each filled by the insert loop; in the single-frame
branch (lines 555-577) a single canvas filled by the same loop over the inputs'
current processors — each input has exactly one frame there (`hasTimeFrames` is
false), so its current processor is its frame 1. -/
def outFrames (conv : Nat → Grid → Grid) (images : List Img) : List Grid :=
  if hasTimeFrames images then
    (List.range (maxFrames images)).map
      (fun f0 => insertAll conv (anyRGB images) (f0 + 1) images 0
        (fun _ _ => blankFill (anyRGB images)))
  else
    [insertAll conv (anyRGB images) 1 images 0 (fun _ _ => blankFill (anyRGB images))]

structure StackOutcome where
  out : Option Img
  messages : List String

/-- `stackImagesHorizontally` (lines 474-592).  Returns the montage (`out = none`
mirrors the `return null` of the arity check) together with the user-facing error
messages it shows.  Both the hyperstack branch (lines 501-554) and the single-frame
branch (lines 555-577) build the same insert loop per output frame; in the
single-frame branch every input has exactly one frame (`hasTimeFrames` is false), so
its current processor is its frame 1. -/
def stackImagesHorizontally (conv : Nat → Grid → Grid) (images : List Img) :
    StackOutcome :=
  if images.length < 2 then
    { out := none, messages := ["Need at least 2 images to create a horizontal stack."] }
  else
    let tf := hasTimeFrames images
    let w := sumWidths images
    let h := maxHeight images
    let rgb := anyRGB images
    let first := images.headD defaultImg
    let bd := if rgb then 24 else if first.bitDepth == 16 then 16 else 8
    let outCal : Cal :=
      { pixelWidth := first.cal.pixelWidth, pixelHeight := first.cal.pixelHeight,
        unit := first.cal.unit,
        frameInterval := if tf then first.cal.frameInterval else defaultCal.frameInterval,
        fps := if tf then first.cal.fps else defaultCal.fps }
    { out := some { width := w, height := h, bitDepth := bd, nChannels := 1,
                    frames := outFrames conv images, cal := outCal, shown := true },
      messages := [] }

/-- Horizontal offset of input `i`: the sum of the widths of all preceding inputs
(the running `xOffset` of lines 551-552 when input `i` is reached). -/
def offsetBefore (images : List Img) (i : Nat) : Nat := sumWidths (images.take i)

/-! ### Helper lemmas about the montage -/

theorem sumWidths_aux (l : List Img) (s : Nat) :
    l.foldl (fun s img => s + img.width) s = s + sumWidths l := by
  induction l generalizing s with
  | nil => simp [sumWidths]
  | cons a t ih =>
      show t.foldl _ (s + a.width) = s + sumWidths (a :: t)
      have h2 : sumWidths (a :: t) = a.width + sumWidths t := by
        show t.foldl _ (0 + a.width) = _
        rw [ih (0 + a.width)]
        omega
      rw [ih (s + a.width), h2]
      omega

theorem sumWidths_cons (img : Img) (l : List Img) :
    sumWidths (img :: l) = img.width + sumWidths l := by
  show l.foldl _ (0 + img.width) = _
  rw [sumWidths_aux]
  omega

theorem maxFrames_aux (l : List Img) (m : Nat)
    (h : ∀ img ∈ l, ¬ 1 < img.frames.length) :
    l.foldl
      (fun m img => if 1 < img.frames.length ∧ m < img.frames.length then img.frames.length else m)
      m = m := by
  induction l generalizing m with
  | nil => rfl
  | cons a t ih =>
      simp only [List.foldl_cons]
      rw [if_neg (by
        intro hc
        exact h a (List.mem_cons_self a t) hc.1)]
      exact ih m (fun img hi => h img (List.mem_cons_of_mem a hi))

theorem maxFrames_of_no_tf (images : List Img) (h : hasTimeFrames images = false) :
    maxFrames images = 1 := by
  have h2 : ∀ img ∈ images, ¬ 1 < img.frames.length := by
    rw [hasTimeFrames] at h
    simpa using h
  exact maxFrames_aux images 1 h2

theorem insertAll_lt (conv : Nat → Grid → Grid) (rgb : Bool) (f : Nat)
    (l : List Img) (xOff : Nat) (canvas : Grid) (x y : Nat) (hx : x < xOff) :
    insertAll conv rgb f l xOff canvas x y = canvas x y := by
  induction l generalizing xOff canvas with
  | nil => rfl
  | cons img rest ih =>
      rw [insertAll]
      rw [ih (xOff + img.width) _ (by omega)]
      rw [insertProc, if_neg (by omega)]

theorem insertAll_spec (conv : Nat → Grid → Grid) (rgb : Bool) (f : Nat)
    (l : List Img) (i : Nat) (hi : i < l.length) (xOff : Nat) (canvas : Grid)
    (x y : Nat) (hx : x < (l.get ⟨i, hi⟩).width) (hy : y < (l.get ⟨i, hi⟩).height) :
    insertAll conv rgb f l xOff canvas (xOff + offsetBefore l i + x) y =
      maybeConvert conv rgb (l.get ⟨i, hi⟩) (procForFrame (l.get ⟨i, hi⟩) f) x y := by
  induction l generalizing i xOff canvas with
  | nil => exact absurd hi (by simp)
  | cons img rest ih =>
      cases i with
      | zero =>
          have hoff : offsetBefore (img :: rest) 0 = 0 := rfl
          rw [hoff, insertAll]
          have hpos : xOff + 0 + x < xOff + img.width := by
            have : x < img.width := hx
            omega
          rw [insertAll_lt conv rgb f rest (xOff + img.width) _ _ _ hpos]
          rw [insertProc, if_pos (by exact ⟨by omega, hpos, hy⟩)]
          have : xOff + 0 + x - xOff = x := by omega
          rw [this]
          rfl
      | succ j =>
          have hj : j < rest.length := Nat.lt_of_succ_lt_succ hi
          have hoff : offsetBefore (img :: rest) (j + 1) = img.width + offsetBefore rest j := by
            show sumWidths ((img :: rest).take (j + 1)) = _
            rw [List.take_succ_cons]
            exact sumWidths_cons img (rest.take j)
          rw [hoff, insertAll]
          have hpos : xOff + (img.width + offsetBefore rest j) + x =
              (xOff + img.width) + offsetBefore rest j + x := by omega
          rw [hpos]
          exact ih j hj (xOff + img.width) _ hx hy

theorem stack_spec_ge2 (conv : Nat → Grid → Grid) (images : List Img)
    (h : 2 ≤ images.length) :
    ∃ o, (stackImagesHorizontally conv images).out = some o ∧
      o.width = sumWidths images ∧ o.height = maxHeight images ∧
      o.bitDepth =
        (if anyRGB images then 24 else
          if (images.headD defaultImg).bitDepth == 16 then 16 else 8) ∧
      (stackImagesHorizontally conv images).messages = [] := by
  rw [stackImagesHorizontally, if_neg (by omega)]
  exact ⟨_, rfl, rfl, rfl, rfl, rfl⟩

theorem stack_spec_lt2 (conv : Nat → Grid → Grid) (images : List Img)
    (h : images.length < 2) :
    (stackImagesHorizontally conv images).out = none ∧
    (stackImagesHorizontally conv images).messages =
      ["Need at least 2 images to create a horizontal stack."] := by
  rw [stackImagesHorizontally, if_pos h]
  exact ⟨rfl, rfl⟩

/-! ## Merger (`createMergeOnly`, Mittens_2.0.js lines 201-374) -/

/-- The channel indices collected into `toMerge` (lines 259-263 and 317-327): index
`j` is taken when merge checkbox `j` is set and `j` is within the split array (the
splitter never returns null entries, so the `!= null` guards always pass). -/
def selectedIdx (checkboxes : List Bool) (c : Nat) : List Nat :=
  (List.range checkboxes.length).filter (fun j => checkboxes.getD j false && decide (j < c))

/-- Inputs `createMergeOnly` reads: the global `originalImage`, the merge checkbox
states, the "use frames" checkbox, and — as a host parameter — the image produced by
`RGBStackMerge.mergeChannels` followed by `IJ.run(..., "RGB Color", "")` and
`setTitle` on a given list of selected channel indices. -/
structure MergeEnv where
  originalImage : Option Img
  checkboxes : List Bool
  useFrames : Bool
  hostMerge : List Nat → Img

/-- Observable outcome of `createMergeOnly`: the returned image (`none` for the
`return null` / fall-through-`undefined` paths), the user-facing messages shown, and
how many of the temporaries it created (the local duplicate plus the per-channel
splits) are still open when it returns. -/
structure MergeOutcome where
  result : Option Img
  messages : List String
  openTemps : Nat

/-- `createMergeOnly(showImage)` (lines 201-374).  The duplicate of the source at the
current Z (lines 231-243) and its channel split (one per source channel) are the
temporaries; pixel-level work (16-bit promotion, merging, RGB forcing) is delegated to
the host.  Branches mirror the source:
* no `originalImage` → error message, `null` (lines 205-208);
* multi-frame (`useFrames` and more than one frame, lines 246-300): when at least one
  channel is selected, merge, copy spatial and temporal calibration (lines 271-278),
  show or hide, close the duplicate and every split (lines 289-297); when none is
  selected the `if (toMerge.length > 0)` block is skipped and the function falls off
  the end of the `try` — nothing is closed;
* single-frame (lines 301-369): empty split → error message, `return null` (duplicate
  left open); no selected channel → duplicate and splits closed, `return null`
  (lines 329-338); otherwise merge, copy spatial calibration (lines 344-349), show or
  hide, close everything (lines 358-366). -/
def createMergeOnly (env : MergeEnv) (showImage : Bool) : MergeOutcome :=
  match env.originalImage with
  | none => { result := none, messages := ["Original image not available."], openTemps := 0 }
  | some orig =>
      if env.useFrames ∧ 1 < orig.frames.length then
        if 0 < (selectedIdx env.checkboxes orig.nChannels).length then
          let m0 := env.hostMerge (selectedIdx env.checkboxes orig.nChannels)
          let m1 : Img :=
            { m0 with
              cal := { m0.cal with
                pixelWidth := orig.cal.pixelWidth, pixelHeight := orig.cal.pixelHeight,
                unit := orig.cal.unit, frameInterval := orig.cal.frameInterval,
                fps := orig.cal.fps },
              shown := showImage }
          { result := some m1, messages := [], openTemps := 0 }
        else
          { result := none, messages := [], openTemps := 1 + orig.nChannels }
      else
        if orig.nChannels < 1 then
          { result := none, messages := ["No channels available in the duplicated image."],
            openTemps := 1 }
        else if (selectedIdx env.checkboxes orig.nChannels).length = 0 then
          { result := none, messages := [], openTemps := 0 }
        else
          let m0 := env.hostMerge (selectedIdx env.checkboxes orig.nChannels)
          let m1 : Img :=
            { m0 with
              cal := { m0.cal with
                pixelWidth := orig.cal.pixelWidth, pixelHeight := orig.cal.pixelHeight,
                unit := orig.cal.unit },
              shown := showImage }
          { result := some m1, messages := [], openTemps := 0 }

/-! ## Channel-On-Demand Provider (`getChannelImage16OnTheFly`, lines 382-424) -/

/-- JS `parseInt(s, 10)`: skip leading whitespace, optional sign, then the longest
prefix of decimal digits; `NaN` (here `none`) when that prefix is empty.  Strings are
handled as character lists throughout (JS string indexing is by character). -/
def parseDigits (cs : List Char) : Option Nat :=
  let ds := cs.takeWhile Char.isDigit
  if ds = [] then none
  else some (ds.foldl (fun a c => a * 10 + (c.toNat - 48)) 0)

def parseIntJS (s : List Char) : Option Int :=
  let cs := s.dropWhile (fun c => c = ' ' ∨ c = '\t' ∨ c = '\n' ∨ c = '\r')
  match cs with
  | '-' :: rest => (parseDigits rest).map (fun n => -(n : Int))
  | '+' :: rest => (parseDigits rest).map (fun n => (n : Int))
  | _ => (parseDigits cs).map (fun n => (n : Int))

/-- JS `chStr.startsWith("Ch")`: the first two characters are `C`, `h`. -/
def startsWithCh (s : String) : Bool :=
  match s.toList with
  | 'C' :: 'h' :: _ => true
  | _ => false

/-- State the Provider reads: the Channel Set filled by the Extractor, the
"use frames" checkbox, and the global `originalImage` (only dereferenced after an
entry resolved, which requires the Extractor to have run and set it). -/
structure ProviderEnv where
  splitInvertedChannels : List (Option Img)
  useFrames : Bool
  originalImage : Img

/-- Outcome of the Provider: the returned duplicate (or `none`), plus the host
actions it performed, in order, for the claims about action-free failure. -/
structure ProvOutcome where
  result : Option Img
  actions : List String

/-- The guard chain of lines 383-389, in source order: `return null` when the string
does not start with "Ch" (line 383), when the parsed index is `NaN` or out of the
array's 0..3 range (lines 384-387), or when the entry is unpopulated (lines 388-389);
otherwise the populated Channel Set entry the string resolves to. -/
def resolveChannelEntry (env : ProviderEnv) (chStr : String) : Option Img :=
  if ¬ startsWithCh chStr then none
  else
    match parseIntJS (chStr.toList.drop 2) with
    | none => none
    | some n =>
        let idx : Int := n - 1
        if idx < 0 ∨ (env.splitInvertedChannels.length : Int) ≤ idx then none
        else env.splitInvertedChannels.getD idx.toNat none

/-- The hidden 16-bit duplicate built in lines 391-421, as a function of the resolved
entry `visImp`: both duplicate commands (line 397 `frames=1-n` and line 400 plain
`duplicate`) copy the full stack; the copy is promoted to 16-bit when not already
(value preserving, lines 405-407), given the source image's spatial calibration plus —
when it has more than one frame — its temporal calibration (lines 411-419), and hidden
(line 421). -/
def providerDup (env : ProviderEnv) (visImp : Img) : Img :=
  { width := visImp.width, height := visImp.height,
    bitDepth := if visImp.bitDepth ≠ 16 then 16 else visImp.bitDepth,
    nChannels := visImp.nChannels,
    frames := visImp.frames,
    cal := { pixelWidth := env.originalImage.cal.pixelWidth,
             pixelHeight := env.originalImage.cal.pixelHeight,
             unit := env.originalImage.cal.unit,
             frameInterval :=
               if 1 < visImp.frames.length then env.originalImage.cal.frameInterval
               else visImp.cal.frameInterval,
             fps :=
               if 1 < visImp.frames.length then env.originalImage.cal.fps
               else visImp.cal.fps },
    shown := false }

/-- `getChannelImage16OnTheFly(chStr)` (lines 382-424): the guard chain of
lines 383-389 (`resolveChannelEntry`) runs first, each failed guard returning `null`
before any host action; only a resolved entry reaches the window selection,
duplication, conversion, calibration copy and hide of lines 391-421. -/
def getChannelImage16OnTheFly (env : ProviderEnv) (chStr : String) : ProvOutcome :=
  match resolveChannelEntry env chStr with
  | none => { result := none, actions := [] }
  | some visImp =>
      { result := some (providerDup env visImp),
        actions := ["selectWindow", "Duplicate", "16-bit", "setTitle",
                    "copyCalibration", "hide"] }

/-! ## Channel Extractor array updates (`duplicateSplitInvert`, lines 100-196)

Both the multi-frame branch (lines 145-164) and the single-frame branch
(lines 167-180) update the 4-slot `splitInvertedChannels` array the same way:
`for (i = 0; i < splitArr.length && i < 4; i++) arr[i] = splitArr[i];`
then `for (k = splitArr.length; k < 4; k++) arr[k] = null;`. -/

def writeSplits : Nat → List (Option Img) → List Img → List (Option Img)
  | _, arr, [] => arr
  | i, arr, ch :: rest =>
      if i < 4 then writeSplits (i + 1) (arr.set i (some ch)) rest else arr

/-- The trailing-null loop `for (k = splitArr.length; k < 4; k++) arr[k] = null;`
written with an explicit iteration bound (the loop runs at most 4 times, since `k`
only increases and the loop stops at 4). -/
def nullFromFuel : Nat → List (Option Img) → Nat → List (Option Img)
  | 0, arr, _ => arr
  | fuel + 1, arr, k => if k < 4 then nullFromFuel fuel (arr.set k none) (k + 1) else arr

def nullFrom (arr : List (Option Img)) (k : Nat) : List (Option Img) :=
  nullFromFuel 4 arr k

/-- The `splitInvertedChannels` array after `duplicateSplitInvert` runs on a split of
`splitArr.length` channels, starting from the previous array contents `prev`. -/
def duplicateSplitInvertChannels (prev : List (Option Img)) (splitArr : List Img) :
    List (Option Img) :=
  nullFrom (writeSplits 0 prev splitArr) splitArr.length

/-! ## Intensity inversion (spec model)

Modelled from the spec: the `Invert` command run by the Extractor
(`IJ.run(splitArr[i], "Invert", ...)`, lines 152 and 171) is host toolkit code not in
this repository; per the spec it maps an 8-bit sample value to max − value = 255 − v. -/

def invert8 (v : Nat) : Nat := 255 - v

/-! ## Alignment workflow (`alignSelectedImages`, lines 433-465) -/

structure AlignEnv where
  mergeEnv : MergeEnv
  provEnv : ProviderEnv

/-- One iteration of the selection loop (lines 437-456): what the choice contributes
to `imagesToAlign`, and the messages shown while resolving it.  "Merge" regenerates a
hidden merged image; any other non-"None" choice goes through the Provider (which
shows no messages); failures contribute nothing. -/
def resolveSelection (env : AlignEnv) (sel : String) : Option Img × List String :=
  if sel = "Merge" then
    let o := createMergeOnly env.mergeEnv false
    (o.result, o.messages)
  else if sel ≠ "None" then
    let p := getChannelImage16OnTheFly env.provEnv sel
    (p.result, [])
  else (none, [])

structure AlignOutcome where
  result : Option Img
  messages : List String

/-- `alignSelectedImages()` (lines 433-465): gather the successfully resolved images,
show the "Need at least 2 images" error and stop when fewer than 2 resolved, else hand
them to the Montage Assembler. -/
def alignSelectedImages (conv : Nat → Grid → Grid) (env : AlignEnv)
    (selections : List String) : AlignOutcome :=
  if (selections.filterMap (fun s => (resolveSelection env s).1)).length < 2 then
    { result := none,
      messages := (selections.map (fun s => (resolveSelection env s).2)).flatten ++
        ["Need at least 2 images to create a horizontal stack."] }
  else
    { result :=
        (stackImagesHorizontally conv
          (selections.filterMap (fun s => (resolveSelection env s).1))).out,
      messages := (selections.map (fun s => (resolveSelection env s).2)).flatten ++
        (stackImagesHorizontally conv
          (selections.filterMap (fun s => (resolveSelection env s).1))).messages }

/-! ## Further helper lemmas -/

theorem stack_frames_spec (conv : Nat → Grid → Grid) (images : List Img)
    (h : 2 ≤ images.length) :
    ∃ o, (stackImagesHorizontally conv images).out = some o ∧
      o.frames.length = maxFrames images ∧
      ∀ f, 1 ≤ f → f ≤ maxFrames images →
        o.frames.getD (f - 1) defaultGrid =
          insertAll conv (anyRGB images) f images 0
            (fun _ _ => blankFill (anyRGB images)) := by
  rw [stackImagesHorizontally, if_neg (by omega)]
  refine ⟨_, rfl, ?_, ?_⟩
  · show (outFrames conv images).length = maxFrames images
    rw [outFrames]
    by_cases htf : hasTimeFrames images = true
    · rw [if_pos htf]
      simp
    · rw [if_neg htf]
      rw [maxFrames_of_no_tf images (by simpa using htf)]
      rfl
  · intro f hf1 hf2
    show (outFrames conv images).getD (f - 1) defaultGrid = _
    rw [outFrames]
    by_cases htf : hasTimeFrames images = true
    · rw [if_pos htf]
      have hlt : f - 1 < maxFrames images := by omega
      rw [List.getD_eq_getElem?_getD, List.getElem?_map]
      rw [List.getElem?_range hlt]
      show insertAll conv (anyRGB images) (f - 1 + 1) images 0 _ = _
      have hf : f - 1 + 1 = f := by omega
      rw [hf]
    · rw [if_neg htf]
      have hmf := maxFrames_of_no_tf images (by simpa using htf)
      have hf : f = 1 := by omega
      subst hf
      rfl

/-! ## Concrete sample inputs used by the witnesses -/

def convId : Nat → Grid → Grid := fun _ g => g

def grayCal : Cal :=
  { pixelWidth := 13/20, pixelHeight := 13/20, unit := "micron",
    frameInterval := 2, fps := 1/2 }

def gA : Grid := fun x y => x + 10 * y + 1

def gB1 : Grid := fun _ _ => 2

def gB2 : Grid := fun _ _ => 3

def gB3 : Grid := fun _ _ => 4

def imgA : Img :=
  { width := 4, height := 3, bitDepth := 8, nChannels := 1, frames := [gA],
    cal := grayCal, shown := true }

def imgB : Img :=
  { width := 5, height := 3, bitDepth := 8, nChannels := 1, frames := [gB1, gB2, gB3],
    cal := grayCal, shown := true }

def img100 : Img :=
  { width := 100, height := 50, bitDepth := 8, nChannels := 1, frames := [defaultGrid],
    cal := grayCal, shown := true }

def img150 : Img :=
  { width := 150, height := 50, bitDepth := 8, nChannels := 1, frames := [defaultGrid],
    cal := grayCal, shown := true }

def img16w : Img :=
  { width := 3, height := 3, bitDepth := 16, nChannels := 1, frames := [defaultGrid],
    cal := grayCal, shown := true }

/-- A 2-channel, 3-frame source image. -/
def origC3 : Img :=
  { width := 2, height := 2, bitDepth := 16, nChannels := 2,
    frames := [defaultGrid, defaultGrid, defaultGrid], cal := grayCal, shown := true }

/-- A fixed host merge result (what `mergeChannels` + "RGB Color" would hand back). -/
def hostMerge0 : List Nat → Img := fun _ =>
  { width := 2, height := 2, bitDepth := 24, nChannels := 1,
    frames := [defaultGrid, defaultGrid, defaultGrid], cal := defaultCal, shown := false }

/-- Multi-frame merge environment with no merge checkbox selected. -/
def envMultiNoSel : MergeEnv :=
  { originalImage := some origC3, checkboxes := [false, false, false, false],
    useFrames := true, hostMerge := hostMerge0 }

/-- Multi-frame merge environment with channel 1 selected. -/
def envC5 : MergeEnv :=
  { originalImage := some origC3, checkboxes := [true, false, false, false],
    useFrames := true, hostMerge := hostMerge0 }

/-- Provider environment with channel 1 populated. -/
def envProv1 : ProviderEnv :=
  { splitInvertedChannels := [some imgA, none, none, none], useFrames := false,
    originalImage := origC3 }

/-- Provider environment with no populated channel. -/
def envProvEmpty : ProviderEnv :=
  { splitInvertedChannels := [none, none, none, none], useFrames := false,
    originalImage := origC3 }

/-! ## Claim theorems -/

/-- **C2**: `stackImagesHorizontally` rejects fewer than 2 inputs with a user-facing
error and no output; with at least 2 inputs it produces an output whose width is the
exact sum of the input widths and whose height is the maximum of the input heights. -/
theorem stack_dims_and_arity_error (conv : Nat → Grid → Grid) (images : List Img) :
    (images.length < 2 →
      (stackImagesHorizontally conv images).out = none ∧
      (stackImagesHorizontally conv images).messages =
        ["Need at least 2 images to create a horizontal stack."]) ∧
    (2 ≤ images.length →
      ∃ o, (stackImagesHorizontally conv images).out = some o ∧
        o.width = sumWidths images ∧ o.height = maxHeight images) := by
  constructor
  · exact stack_spec_lt2 conv images
  · intro h
    obtain ⟨o, h1, h2, h3, _⟩ := stack_spec_ge2 conv images h
    exact ⟨o, h1, h2, h3⟩

/-- Witness for C2: one input is rejected with the error message; inputs of widths
100 and 150 yield an output of width 250. -/
theorem stack_dims_and_arity_error_witness :
    ((stackImagesHorizontally convId [img100]).out = none ∧
      (stackImagesHorizontally convId [img100]).messages =
        ["Need at least 2 images to create a horizontal stack."]) ∧
    ∃ o, (stackImagesHorizontally convId [img100, img150]).out = some o ∧
      o.width = 250 ∧ o.height = 50 := by
  refine ⟨(stack_dims_and_arity_error convId [img100]).1 (by decide), ?_⟩
  obtain ⟨o, h1, h2, h3⟩ := (stack_dims_and_arity_error convId [img100, img150]).2 (by decide)
  exact ⟨o, h1, by rw [h2]; rfl, by rw [h3]; rfl⟩

/-- **C4**: for at least 2 inputs whose bit depths are among the data model's
8/16/24, the output is 24-bit when any input is 24-bit, and otherwise has the first
input's bit depth. -/
theorem stack_output_bitDepth (conv : Nat → Grid → Grid) (images : List Img)
    (h2 : 2 ≤ images.length)
    (hbd : ∀ img ∈ images, img.bitDepth = 8 ∨ img.bitDepth = 16 ∨ img.bitDepth = 24) :
    ∃ o, (stackImagesHorizontally conv images).out = some o ∧
      o.bitDepth =
        if anyRGB images = true then 24 else (images.headD defaultImg).bitDepth := by
  obtain ⟨o, h1, _, _, hb, _⟩ := stack_spec_ge2 conv images h2
  refine ⟨o, h1, ?_⟩
  rw [hb]
  by_cases hr : anyRGB images = true
  · rw [if_pos hr, if_pos hr]
  · rw [if_neg hr, if_neg hr]
    have hmem : images.headD defaultImg ∈ images := by
      cases images with
      | nil => simp at h2
      | cons a t => simp
    have hn24 : (images.headD defaultImg).bitDepth ≠ 24 := by
      intro hc
      refine hr (List.any_eq_true.mpr ⟨_, hmem, ?_⟩)
      show ((images.headD defaultImg).bitDepth == 24) = true
      rw [hc]
      rfl
    rcases hbd _ hmem with h8 | h16 | h24
    · rw [h8]
      rfl
    · rw [h16]
      rfl
    · exact absurd h24 hn24

/-- Witness for C4: an 8-bit first input and a 16-bit second input, no 24-bit input:
the output keeps the first input's 8-bit depth. -/
theorem stack_output_bitDepth_witness :
    ∃ o, (stackImagesHorizontally convId [img100, img16w]).out = some o ∧
      o.bitDepth = 8 := by
  obtain ⟨o, h1, h2⟩ := stack_output_bitDepth convId [img100, img16w] (by decide) (by decide)
  exact ⟨o, h1, by rw [h2]; rfl⟩

/-- **C1**: for any list of at least 2 inputs and any output frame `f` (1-indexed,
up to the output frame count `maxFrames`), the montage's content at the horizontal
offset equal to the sum of the widths of the preceding inputs is an exact
(depth-converted, via `maybeConvert`) copy of input `i`'s content at frame `f`,
clamped to that input's last frame (`procForFrame`) when the input has fewer than `f`
frames; the output has `maxFrames images` frames. -/
theorem stack_region_copies_input (conv : Nat → Grid → Grid) (images : List Img)
    (h2 : 2 ≤ images.length) (i : Nat) (hi : i < images.length) (f : Nat)
    (hf1 : 1 ≤ f) (hf2 : f ≤ maxFrames images) (x y : Nat)
    (hx : x < (images.get ⟨i, hi⟩).width) (hy : y < (images.get ⟨i, hi⟩).height) :
    ∃ o, (stackImagesHorizontally conv images).out = some o ∧
      o.frames.length = maxFrames images ∧
      o.frames.getD (f - 1) defaultGrid (offsetBefore images i + x) y =
        maybeConvert conv (anyRGB images) (images.get ⟨i, hi⟩)
          (procForFrame (images.get ⟨i, hi⟩) f) x y := by
  obtain ⟨o, ho, hlen, hframes⟩ := stack_frames_spec conv images h2
  refine ⟨o, ho, hlen, ?_⟩
  rw [hframes f hf1 hf2]
  have h := insertAll_spec conv (anyRGB images) f images i hi 0
    (fun _ _ => blankFill (anyRGB images)) x y hx hy
  rw [Nat.zero_add] at h
  exact h

/-- Witness for C1: inputs with frame counts {1, 3}; the output has 3 frames and
frame 2 at the first input's region reproduces its frame 1 content (`gA 1 2 = 22`). -/
theorem stack_region_copies_input_witness :
    ∃ o, (stackImagesHorizontally convId [imgA, imgB]).out = some o ∧
      o.frames.length = 3 ∧
      o.frames.getD 1 defaultGrid 1 2 = 22 ∧ gA 1 2 = 22 := by
  have hmf : maxFrames [imgA, imgB] = 3 := rfl
  obtain ⟨o, h1, h2, h3⟩ := stack_region_copies_input convId [imgA, imgB] (by decide)
    0 (by decide) 2 (by decide) (by rw [hmf]; decide) 1 2 (by decide) (by decide)
  rw [hmf] at h2
  exact ⟨o, h1, h2, h3, rfl⟩

/-- **C3** (code bug): in multi-frame mode with zero channels selected,
`createMergeOnly` returns nothing but leaves the duplicated time stack and both
channel splits open (`openTemps = 3`); the same selection in single-frame mode
releases everything. -/
theorem merge_zero_selected_leaks_temporaries :
    (createMergeOnly envMultiNoSel false).result = none ∧
    (createMergeOnly envMultiNoSel false).openTemps = 3 ∧
    (createMergeOnly { envMultiNoSel with useFrames := false } false).result = none ∧
    (createMergeOnly { envMultiNoSel with useFrames := false } false).openTemps = 0 :=
  ⟨rfl, rfl, rfl, rfl⟩

/-- **C5**: whenever `createMergeOnly` returns a composite, the composite's pixel
size and unit equal the source image's, and in multi-frame mode (the frames-enabled
branch) its frame interval and sampling rate do as well. -/
theorem merge_calibration_copied (env : MergeEnv) (showImage : Bool) (m : Img)
    (hm : (createMergeOnly env showImage).result = some m) :
    ∃ orig, env.originalImage = some orig ∧
      m.cal.pixelWidth = orig.cal.pixelWidth ∧
      m.cal.pixelHeight = orig.cal.pixelHeight ∧
      m.cal.unit = orig.cal.unit ∧
      (env.useFrames = true → 1 < orig.frames.length →
        m.cal.frameInterval = orig.cal.frameInterval ∧ m.cal.fps = orig.cal.fps) := by
  unfold createMergeOnly at hm
  split at hm
  next => exact Option.noConfusion hm
  next orig horig =>
    refine ⟨orig, horig, ?_⟩
    split at hm
    next htf =>
      split at hm
      next hsel =>
        have hminj := Option.some.inj hm
        rw [← hminj]
        exact ⟨rfl, rfl, rfl, fun _ _ => ⟨rfl, rfl⟩⟩
      next hsel => exact Option.noConfusion hm
    next htf =>
      split at hm
      next hch => exact Option.noConfusion hm
      next hch =>
        split at hm
        next hz => exact Option.noConfusion hm
        next hz =>
          have hminj := Option.some.inj hm
          rw [← hminj]
          exact ⟨rfl, rfl, rfl, fun hu hf => absurd ⟨hu, hf⟩ htf⟩

/-- Witness for C5: a concrete multi-frame merge; the composite's calibration fields
equal the source's (`grayCal`). -/
theorem merge_calibration_copied_witness :
    ∃ m, (createMergeOnly envC5 true).result = some m ∧
      m.cal.pixelWidth = grayCal.pixelWidth ∧ m.cal.unit = grayCal.unit ∧
      m.cal.frameInterval = grayCal.frameInterval := by
  obtain ⟨m, hm⟩ : ∃ m, (createMergeOnly envC5 true).result = some m := ⟨_, rfl⟩
  obtain ⟨orig, ho, h1, h2, h3, h4⟩ := merge_calibration_copied envC5 true m hm
  have horig : orig = origC3 := by
    have h : (some origC3 : Option Img) = some orig := ho
    exact (Option.some.inj h).symm
  subst horig
  exact ⟨m, hm, h1, h3, (h4 rfl (by decide)).1⟩

/-- **C8**: the Extractor's intensity inversion (spec-modelled `invert8`,
value ↦ 255 − value) is involutive on 8-bit sample values. -/
theorem invert8_involutive (v : Nat) (hv : v ≤ 255) : invert8 (invert8 v) = v := by
  unfold invert8
  omega

/-- Witness for C8 at the sample value 200. -/
theorem invert8_involutive_witness : 200 ≤ 255 ∧ invert8 (invert8 200) = 200 :=
  ⟨by decide, invert8_involutive 200 (by decide)⟩

/-- **C6**: an identifier that does not resolve to a populated Channel Set entry
yields nothing; a resolving identifier yields a hidden (not shown) 16-bit duplicate
whose spatial calibration — and temporal calibration when it has more than one
frame — equals the source image's. -/
theorem provider_resolution_and_output (env : ProviderEnv) (chStr : String) :
    (resolveChannelEntry env chStr = none →
      (getChannelImage16OnTheFly env chStr).result = none) ∧
    (∀ visImp, resolveChannelEntry env chStr = some visImp →
      ∃ r, (getChannelImage16OnTheFly env chStr).result = some r ∧
        r.shown = false ∧ r.bitDepth = 16 ∧
        r.cal.pixelWidth = env.originalImage.cal.pixelWidth ∧
        r.cal.pixelHeight = env.originalImage.cal.pixelHeight ∧
        r.cal.unit = env.originalImage.cal.unit ∧
        (1 < r.frames.length →
          r.cal.frameInterval = env.originalImage.cal.frameInterval ∧
          r.cal.fps = env.originalImage.cal.fps)) := by
  constructor
  · intro h
    unfold getChannelImage16OnTheFly
    rw [h]
  · intro visImp h
    unfold getChannelImage16OnTheFly
    rw [h]
    refine ⟨providerDup env visImp, rfl, rfl, ?_, rfl, rfl, rfl, ?_⟩
    · show (if visImp.bitDepth ≠ 16 then 16 else visImp.bitDepth) = 16
      split
      · rfl
      next hb => omega
    · intro hf
      have hf2 : 1 < visImp.frames.length := hf
      constructor
      · show (if 1 < visImp.frames.length then _ else _) = _
        rw [if_pos hf2]
      · show (if 1 < visImp.frames.length then _ else _) = _
        rw [if_pos hf2]

/-- Witness for C6: channel 1 is populated with the 8-bit `imgA`; "Ch1" yields a
hidden 16-bit duplicate carrying the source's calibration unit. -/
theorem provider_resolution_and_output_witness :
    ∃ r, (getChannelImage16OnTheFly envProv1 "Ch1").result = some r ∧
      r.shown = false ∧ r.bitDepth = 16 ∧ r.cal.unit = "micron" := by
  obtain ⟨r, h1, h2, h3, _, _, h6, _⟩ :=
    (provider_resolution_and_output envProv1 "Ch1").2 imgA rfl
  exact ⟨r, h1, h2, h3, h6⟩

/-- **C10**: whenever the Provider returns nothing, it has performed no host action
(no window selection, no duplication, no conversion, no state change). -/
theorem provider_none_no_actions (env : ProviderEnv) (chStr : String)
    (h : (getChannelImage16OnTheFly env chStr).result = none) :
    (getChannelImage16OnTheFly env chStr).actions = [] := by
  unfold getChannelImage16OnTheFly at h ⊢
  cases hr : resolveChannelEntry env chStr with
  | none => rfl
  | some visImp =>
      rw [hr] at h
      exact Option.noConfusion h

/-- Witness for C10: an unpopulated "Ch1" request returns nothing and performed no
action. -/
theorem provider_none_no_actions_witness :
    (getChannelImage16OnTheFly envProvEmpty "Ch1").actions = [] :=
  provider_none_no_actions envProvEmpty "Ch1" rfl

theorem writeSplits_ge4 (l : List Img) (i : Nat) (arr : List (Option Img)) (h : 4 ≤ i) :
    writeSplits i arr l = arr := by
  cases l with
  | nil => rfl
  | cons ch rest => rw [writeSplits, if_neg (by omega)]

theorem nullFromFuel_succ (fuel : Nat) (arr : List (Option Img)) (k : Nat) :
    nullFromFuel (fuel + 1) arr k =
      if k < 4 then nullFromFuel fuel (arr.set k none) (k + 1) else arr := rfl

theorem nullFrom_ge4 (arr : List (Option Img)) (k : Nat) (h : 4 ≤ k) :
    nullFrom arr k = arr := by
  show nullFromFuel (3 + 1) arr k = arr
  rw [nullFromFuel_succ, if_neg (by omega)]

/-- **C7**: after the Extractor's array-update loops run on a split of any channel
count, the Channel Set still has exactly 4 slots, slot `j` (j < 4) holds channel `j`
exactly when the split provides it (channels beyond the fourth are ignored), and
every slot at or beyond the split's channel count is explicitly null. -/
theorem extractor_channel_slots (prev : List (Option Img)) (splitArr : List Img)
    (hlen : prev.length = 4) :
    (duplicateSplitInvertChannels prev splitArr).length = 4 ∧
    (∀ j, j < 4 →
      (duplicateSplitInvertChannels prev splitArr).getD j none = splitArr.get? j) ∧
    (∀ j, splitArr.length ≤ j → j < 4 →
      (duplicateSplitInvertChannels prev splitArr).getD j none = none) := by
  rcases prev with _ | ⟨a, _ | ⟨b, _ | ⟨c, _ | ⟨d, _ | ⟨e, rest⟩⟩⟩⟩⟩ <;>
    simp only [List.length_cons, List.length_nil] at hlen <;> try omega
  rcases splitArr with _ | ⟨c1, _ | ⟨c2, _ | ⟨c3, _ | ⟨c4, tail⟩⟩⟩⟩
  · exact ⟨rfl, fun j hj => by interval_cases j <;> rfl,
      fun j _ hj => by interval_cases j <;> rfl⟩
  · exact ⟨rfl, fun j hj => by interval_cases j <;> rfl,
      fun j hj1 hj2 => by interval_cases j <;> first | rfl | (simp at hj1)⟩
  · exact ⟨rfl, fun j hj => by interval_cases j <;> rfl,
      fun j hj1 hj2 => by interval_cases j <;> first | rfl | (simp at hj1)⟩
  · exact ⟨rfl, fun j hj => by interval_cases j <;> rfl,
      fun j hj1 hj2 => by interval_cases j <;> first | rfl | (simp at hj1)⟩
  · have hws : writeSplits 0 [a, b, c, d] (c1 :: c2 :: c3 :: c4 :: tail) =
        [some c1, some c2, some c3, some c4] := by
      show writeSplits 4 [some c1, some c2, some c3, some c4] tail = _
      exact writeSplits_ge4 tail 4 _ (Nat.le_refl 4)
    have heq : duplicateSplitInvertChannels [a, b, c, d] (c1 :: c2 :: c3 :: c4 :: tail) =
        [some c1, some c2, some c3, some c4] := by
      rw [duplicateSplitInvertChannels, hws]
      exact nullFrom_ge4 _ _ (by simp only [List.length_cons]; omega)
    refine ⟨by rw [heq]; rfl, ?_, ?_⟩
    · intro j hj
      rw [heq]
      interval_cases j <;> rfl
    · intro j hj1 hj2
      simp only [List.length_cons] at hj1
      omega

/-- Witness for C7: a 2-channel split into an empty Channel Set populates slots 0-1
and nulls slots 2-3. -/
theorem extractor_channel_slots_witness :
    (duplicateSplitInvertChannels [none, none, none, none] [imgA, imgB]).getD 0 none
        = some imgA ∧
    (duplicateSplitInvertChannels [none, none, none, none] [imgA, imgB]).getD 2 none
        = none ∧
    (duplicateSplitInvertChannels [none, none, none, none] [imgA, imgB]).getD 3 none
        = none := by
  obtain ⟨h1, h2, h3⟩ :=
    extractor_channel_slots [none, none, none, none] [imgA, imgB] rfl
  exact ⟨by rw [h2 0 (by decide)]; rfl, h3 2 (by decide) (by decide),
    h3 3 (by decide) (by decide)⟩

/-! ### Alignment-workflow helpers -/

theorem createMergeOnly_messages (env : MergeEnv) (b : Bool) :
    (createMergeOnly env b).messages = [] ∨
    (createMergeOnly env b).messages = ["Original image not available."] ∨
    (createMergeOnly env b).messages = ["No channels available in the duplicated image."] := by
  unfold createMergeOnly
  split
  · right
    left
    rfl
  · split
    · split
      · left
        rfl
      · left
        rfl
    · split
      · right
        right
        rfl
      · split
        · left
          rfl
        · left
          rfl

theorem createMergeOnly_silent (env : MergeEnv) (b : Bool) (orig : Img)
    (horig : env.originalImage = some orig) (hc : 1 ≤ orig.nChannels) :
    (createMergeOnly env b).messages = [] := by
  unfold createMergeOnly
  split
  next h =>
    rw [horig] at h
    exact Option.noConfusion h
  next orig2 h =>
    rw [horig] at h
    obtain rfl := Option.some.inj h
    split
    · split
      · rfl
      · rfl
    · split
      next hch => omega
      · split
        · rfl
        · rfl

theorem resolveSelection_msgs (env : AlignEnv) (s : String) :
    (resolveSelection env s).2 = [] ∨
    (resolveSelection env s).2 = ["Original image not available."] ∨
    (resolveSelection env s).2 = ["No channels available in the duplicated image."] := by
  unfold resolveSelection
  split
  · exact createMergeOnly_messages env.mergeEnv false
  · split
    · left
      rfl
    · left
      rfl

theorem need2_not_mem_sub (env : AlignEnv) (selections : List String) :
    "Need at least 2 images to create a horizontal stack." ∉
      (selections.map (fun s => (resolveSelection env s).2)).flatten := by
  intro hmem
  rw [List.mem_flatten] at hmem
  obtain ⟨l, hl, hx⟩ := hmem
  rw [List.mem_map] at hl
  obtain ⟨s, _, rfl⟩ := hl
  rcases resolveSelection_msgs env s with h | h | h <;> rw [h] at hx <;> simp at hx

/-- **C9** (amended): in `alignSelectedImages` the "need at least 2 images" error is
decided by the count of successfully resolved images (not by the count of non-"None"
selections); channel selections that fail to resolve contribute no message, and a
"Merge" selection is message-free whenever the source image is available with at
least one channel — the "Merge"-with-no-source case is the one failure that does show
a message. -/
theorem align_error_by_resolved_count (conv : Nat → Grid → Grid) (env : AlignEnv)
    (selections : List String) :
    ((alignSelectedImages conv env selections).result = none ↔
      (selections.filterMap (fun s => (resolveSelection env s).1)).length < 2) ∧
    ("Need at least 2 images to create a horizontal stack." ∈
        (alignSelectedImages conv env selections).messages ↔
      (selections.filterMap (fun s => (resolveSelection env s).1)).length < 2) ∧
    (∀ s, s ≠ "Merge" → (resolveSelection env s).2 = []) ∧
    (∀ orig, env.mergeEnv.originalImage = some orig → 1 ≤ orig.nChannels →
      (resolveSelection env "Merge").2 = []) := by
  refine ⟨?_, ?_, ?_, ?_⟩
  · by_cases hlen :
      (selections.filterMap (fun s => (resolveSelection env s).1)).length < 2
    · rw [alignSelectedImages, if_pos hlen]
      exact ⟨fun _ => hlen, fun _ => rfl⟩
    · rw [alignSelectedImages, if_neg hlen]
      show (stackImagesHorizontally conv
        (selections.filterMap (fun s => (resolveSelection env s).1))).out = none ↔ _
      obtain ⟨o, ho, _, _, _, _⟩ := stack_spec_ge2 conv
        (selections.filterMap (fun s => (resolveSelection env s).1)) (by omega)
      rw [ho]
      exact ⟨fun hc => Option.noConfusion hc, fun hl => absurd hl hlen⟩
  · by_cases hlen :
      (selections.filterMap (fun s => (resolveSelection env s).1)).length < 2
    · rw [alignSelectedImages, if_pos hlen]
      refine ⟨fun _ => hlen, fun _ => ?_⟩
      exact List.mem_append_right _ (List.mem_singleton.mpr rfl)
    · rw [alignSelectedImages, if_neg hlen]
      obtain ⟨o, ho, _, _, _, hmsg⟩ := stack_spec_ge2 conv
        (selections.filterMap (fun s => (resolveSelection env s).1)) (by omega)
      constructor
      · intro hmem
        have hmem2 : "Need at least 2 images to create a horizontal stack." ∈
            (selections.map (fun s => (resolveSelection env s).2)).flatten ++
            (stackImagesHorizontally conv
              (selections.filterMap (fun s => (resolveSelection env s).1))).messages :=
          hmem
        rw [hmsg] at hmem2
        exact absurd (by simpa using hmem2) (need2_not_mem_sub env selections)
      · intro hl
        exact absurd hl hlen
  · intro s hs
    unfold resolveSelection
    rw [if_neg hs]
    split
    · rfl
    · rfl
  · intro orig horig hc
    unfold resolveSelection
    rw [if_pos rfl]
    exact createMergeOnly_silent env.mergeEnv false orig horig hc

/-- Merge environment with no source image available. -/
def mergeEnvNoOrig : MergeEnv :=
  { originalImage := none, checkboxes := [false, false, false, false],
    useFrames := false, hostMerge := hostMerge0 }

/-- Single-frame merge environment with no merge checkbox selected. -/
def mergeEnvIdle : MergeEnv :=
  { originalImage := some origC3, checkboxes := [false, false, false, false],
    useFrames := false, hostMerge := hostMerge0 }

/-- Alignment environment with no source image available. -/
def envAlignNoOrig : AlignEnv :=
  { mergeEnv := mergeEnvNoOrig, provEnv := envProvEmpty }

/-- Alignment environment: source available, channel 1 populated, no merge checkbox. -/
def envAlign1 : AlignEnv :=
  { mergeEnv := mergeEnvIdle, provEnv := envProv1 }

/-- **C9** counterexample: with no source image available, a "Merge" selection whose
merge produces nothing is not silently skipped — the Merger's user-facing error
message is shown while `alignSelectedImages` resolves it. -/
theorem align_merge_failure_shows_message :
    "Original image not available." ∈
      (alignSelectedImages convId envAlignNoOrig
        ["Merge", "None", "None", "None", "None"]).messages := by
  have h : (alignSelectedImages convId envAlignNoOrig
      ["Merge", "None", "None", "None", "None"]).messages =
      ["Original image not available.",
        "Need at least 2 images to create a horizontal stack."] := rfl
  rw [h]
  exact List.mem_cons_self _ _

/-- Witness for the amended C9: "Ch1" and "Ch2" selected with only channel 1
populated — two non-"None" selections but one resolved image, so the arity error is
shown; the failed "Ch2" lookup itself contributed no message. -/
theorem align_error_by_resolved_count_witness :
    (alignSelectedImages convId envAlign1 ["Ch1", "Ch2", "None", "None", "None"]).result
        = none ∧
    "Need at least 2 images to create a horizontal stack." ∈
      (alignSelectedImages convId envAlign1
        ["Ch1", "Ch2", "None", "None", "None"]).messages ∧
    (resolveSelection envAlign1 "Ch2").2 = [] := by
  have hc1 : (["Ch1", "Ch2", "None", "None", "None"].filterMap
      (fun s => (resolveSelection envAlign1 s).1)).length = 1 := rfl
  have hc : (["Ch1", "Ch2", "None", "None", "None"].filterMap
      (fun s => (resolveSelection envAlign1 s).1)).length < 2 := by omega
  obtain ⟨h1, h2, h3, _⟩ :=
    align_error_by_resolved_count convId envAlign1 ["Ch1", "Ch2", "None", "None", "None"]
  exact ⟨h1.mpr hc, h2.mpr hc, h3 "Ch2" (by decide)⟩

end Mittens
